import Mathlib

/-!
Shallow embedding of the zoxaa-aicompanion repository: the memory-relevance
retrieval of the `useZoxaaMemory` hook, the plan tracker of `useZoxaaPlans`,
the chat/TTS relay handlers, and the prompt assembly of `useZoxaaChat`.
JavaScript numbers are modelled as exact rationals; `Math.sqrt` is modelled
by `Real.sqrt`, so the cosine-similarity value lives in `ℝ`.
-/

/-! ## Memory data model (`useZoxaaMemory`, src/unnamed/part_007) -/

inductive Importance
  | low
  | medium
  | high
deriving DecidableEq, Repr

/-- The `importanceOrder` table `{ high: 3, medium: 2, low: 1 }` used by the
keyword-fallback sort in `getRelevantMemories`. -/
def importanceOrder : Importance → ℕ
  | .high => 3
  | .medium => 2
  | .low => 1

def importanceText : Importance → String
  | .high => "high"
  | .medium => "medium"
  | .low => "low"

structure ZoxaaMemory where
  id : String
  content : String
  context : String
  importance : Importance
  tags : List String
  embedding : Option (List ℚ)
deriving DecidableEq, Repr

/-- JavaScript `s.includes(sub)`: `sub` occurs contiguously in `s`. -/
def strIncludes (s sub : String) : Bool :=
  decide (sub.toList <:+: s.toList)

/-- The filter of the fallback path of `getRelevantMemories`:
`keywords.some(k => memory.content.toLowerCase().includes(k) ||
memory.tags.some(tag => tag.toLowerCase().includes(k)))`. -/
def memoryMatches (keywords : List String) (memory : ZoxaaMemory) : Bool :=
  keywords.any fun keyword =>
    strIncludes memory.content.toLower keyword
      || memory.tags.any fun tag => strIncludes tag.toLower keyword

/-- Comparator of the fallback sort, `(a, b) => importanceOrder[b.importance]
- importanceOrder[a.importance]`: `a` may precede `b` exactly when the
difference is nonpositive. -/
def importanceLe (a b : ZoxaaMemory) : Bool :=
  decide (importanceOrder b.importance ≤ importanceOrder a.importance)

/-- Fallback (keyword) path of `getRelevantMemories`: lowercase the query,
split on spaces, filter by `memoryMatches`, sort by importance descending
(stable, as JavaScript `Array.prototype.sort`), keep the first `limit`. -/
def fallbackSearch (memories : List ZoxaaMemory) (query : String) (limit : ℕ) :
    List ZoxaaMemory :=
  let keywords := query.toLower.splitOn " "
  (((memories.filter (memoryMatches keywords)).mergeSort importanceLe).take limit)

/-- The reduce `a.reduce((sum, a_i, i) => sum + a_i * b[i], 0)` for equal-length vectors. -/
def dotProduct (a b : List ℚ) : ℚ :=
  (a.zip b).foldl (fun sum p => sum + p.1 * p.2) 0

/-- The reduce `a.reduce((sum, a_i) => sum + a_i * a_i, 0)`. -/
def sumSquares (a : List ℚ) : ℚ :=
  a.foldl (fun sum x => sum + x * x) 0

/-- The value `Math.sqrt(a.reduce((sum, a_i) => sum + a_i * a_i, 0))`. -/
noncomputable def magnitude (a : List ℚ) : ℝ :=
  Real.sqrt ((sumSquares a : ℚ) : ℝ)

open Classical in
/-- The `cosineSimilarity` helper of src/unnamed/part_007: returns 0 on a
length mismatch, returns 0 when either magnitude is 0, otherwise divides the
dot product by the product of magnitudes. -/
noncomputable def cosineSimilarity (a b : List ℚ) : ℝ :=
  if a.length ≠ b.length then 0
  else if magnitude a = 0 ∨ magnitude b = 0 then 0
  else (dotProduct a b : ℝ) / (magnitude a * magnitude b)

/-- The check `memory.embedding && memory.embedding.length > 0`. -/
def hasUsableEmbedding (m : ZoxaaMemory) : Bool :=
  match m.embedding with
  | none => false
  | some e => decide (0 < e.length)

open Classical in
/-- Comparator `(a, b) => b.similarity - a.similarity` on the
memory/similarity pairs: `a` may precede `b` when `b.similarity ≤ a.similarity`. -/
noncomputable def simLe (x y : ZoxaaMemory × ℝ) : Bool :=
  decide (y.2 ≤ x.2)

/-- Embedding (primary) path of `getRelevantMemories`: keep memories with a
usable embedding, pair each with its cosine similarity to the query embedding,
sort by descending similarity, keep the first `limit`, drop the scores. -/
noncomputable def embeddingSearch (queryEmbedding : List ℚ)
    (memories : List ZoxaaMemory) (limit : ℕ) : List ZoxaaMemory :=
  ((((memories.filter hasUsableEmbedding).map
      (fun m => (m, cosineSimilarity queryEmbedding (m.embedding.getD [])))).mergeSort
      simLe).take limit).map Prod.fst

/-- The select-the-best combinator inside the embedding path, generic in the
similarity function: pair each candidate with its score, sort by descending
score, keep the first `limit`, drop the scores.  `embeddingSearch` is this
combinator at the cosine similarity against the query embedding. -/
noncomputable def topSelect (f : ZoxaaMemory → ℝ) (cands : List ZoxaaMemory)
    (limit : ℕ) : List ZoxaaMemory :=
  (((cands.map fun m => (m, f m)).mergeSort simLe).take limit).map Prod.fst

/-- Model of `generateEmbedding`: the outcome of the embeddings request (network
failure and non-ok statuses both surface as `Except.error`); the surrounding
`try/catch` swallows any error and yields the empty vector. -/
def generateEmbedding (requestResult : Except String (List ℚ)) : List ℚ :=
  match requestResult with
  | .ok embedding => embedding
  | .error _ => []

/-- Model of `getRelevantMemories(query, limit)` with the embeddings-request outcome
made explicit: an empty query embedding selects the keyword fallback,
otherwise the similarity search runs. -/
noncomputable def getRelevantMemories (requestResult : Except String (List ℚ))
    (memories : List ZoxaaMemory) (query : String) (limit : ℕ) :
    List ZoxaaMemory :=
  if (generateEmbedding requestResult).length = 0 then
    fallbackSearch memories query limit
  else
    embeddingSearch (generateEmbedding requestResult) memories limit

/-! ## Plan tracker (`useZoxaaPlans`) -/

structure ZoxaaPlanStep where
  id : String
  title : String
  description : String
  completed : Bool
  dueDate : Option ℕ
  priority : Importance
deriving DecidableEq, Repr

inductive PlanStatus
  | active
  | completed
  | paused
  | archived
deriving DecidableEq, Repr

structure ZoxaaPlan where
  id : String
  title : String
  description : String
  goals : List String
  steps : List ZoxaaPlanStep
  status : PlanStatus
  createdAt : ℕ
  updatedAt : ℕ
  completionPercentage : ℤ
  category : Option String
  tags : List String
deriving DecidableEq, Repr

/-- JavaScript `Math.round` on a nonnegative value: half away from zero,
which for our nonnegative percentages is `⌊q + 1/2⌋`. -/
def jsRound (q : ℚ) : ℤ :=
  ⌊q + 1 / 2⌋

/-- The hook helper `calculateCompletion`: 0 for an empty step list, otherwise
`Math.round((completedSteps / steps.length) * 100)`. -/
def calculateCompletion (steps : List ZoxaaPlanStep) : ℤ :=
  if steps.length = 0 then 0
  else jsRound ((((steps.filter (·.completed)).length : ℚ) / steps.length) * 100)

/-- Completion percentage as the specification words it:
`round(100 * completed_steps / total_steps)`, and 0 when there are no steps.
This definition follows the spec text and is compared against the code-side
`calculateCompletion`. -/
def specCompletionPercentage (steps : List ZoxaaPlanStep) : ℤ :=
  if steps.length = 0 then 0
  else jsRound (100 * ((steps.filter (·.completed)).length : ℚ) / steps.length)

/-- A step produced by `generatePlanSteps` before it gets an id and the
`completed: false` flag. -/
structure GeneratedStep where
  title : String
  description : String
  priority : Importance
deriving DecidableEq, Repr

/-- The mapping at the end of `generatePlanSteps`: each generated step gets a
fresh id and `completed := false`. -/
def generatedToSteps (now : ℕ) (gsteps : List GeneratedStep) : List ZoxaaPlanStep :=
  gsteps.enum.map fun p =>
    { id := "step_" ++ toString now ++ "_" ++ toString p.1
      title := p.2.title
      description := p.2.description
      completed := false
      dueDate := none
      priority := p.2.priority }

/-- Model of `createPlan`: a fresh plan around the generated steps, with
`completionPercentage` literally set to 0. -/
def createPlan (freshId : String) (now : ℕ) (title description : String)
    (goals : List String) (category : Option String)
    (gsteps : List GeneratedStep) : ZoxaaPlan :=
  { id := freshId
    title := title
    description := description
    goals := goals
    steps := generatedToSteps now gsteps
    status := .active
    createdAt := now
    updatedAt := now
    completionPercentage := 0
    category := category
    tags := [] }

/-- The type `Partial<ZoxaaPlan>`: the optional fields an `updatePlan` call may carry. -/
structure PlanUpdates where
  id : Option String
  title : Option String
  description : Option String
  goals : Option (List String)
  steps : Option (List ZoxaaPlanStep)
  status : Option PlanStatus
  createdAt : Option ℕ
  completionPercentage : Option ℤ
  category : Option (Option String)
  tags : Option (List String)
deriving DecidableEq, Repr

/-- The spread `{ ...plan, ...updates, updatedAt: new Date() }`. -/
def applyPlanUpdates (plan : ZoxaaPlan) (u : PlanUpdates) (now : ℕ) : ZoxaaPlan :=
  { id := u.id.getD plan.id
    title := u.title.getD plan.title
    description := u.description.getD plan.description
    goals := u.goals.getD plan.goals
    steps := u.steps.getD plan.steps
    status := u.status.getD plan.status
    createdAt := u.createdAt.getD plan.createdAt
    updatedAt := now
    completionPercentage := u.completionPercentage.getD plan.completionPercentage
    category := u.category.getD plan.category
    tags := u.tags.getD plan.tags }

/-- Model of `updatePlan`: merge the updates into the matching plan and recompute its
completion percentage from the merged step list. -/
def updatePlanList (plans : List ZoxaaPlan) (planId : String) (u : PlanUpdates)
    (now : ℕ) : List ZoxaaPlan :=
  plans.map fun plan =>
    if plan.id = planId then
      let updatedPlan := applyPlanUpdates plan u now
      { updatedPlan with completionPercentage := calculateCompletion updatedPlan.steps }
    else plan

/-- The type `Partial<ZoxaaPlanStep>` for `updateStep`. -/
structure StepUpdates where
  id : Option String
  title : Option String
  description : Option String
  completed : Option Bool
  dueDate : Option (Option ℕ)
  priority : Option Importance
deriving DecidableEq, Repr

/-- The spread `{ ...step, ...updates }`. -/
def applyStepUpdates (step : ZoxaaPlanStep) (u : StepUpdates) : ZoxaaPlanStep :=
  { id := u.id.getD step.id
    title := u.title.getD step.title
    description := u.description.getD step.description
    completed := u.completed.getD step.completed
    dueDate := u.dueDate.getD step.dueDate
    priority := u.priority.getD step.priority }

/-- Model of `updateStep`: rewrite the matching step inside the matching plan and
recompute that plan's completion percentage from the rewritten steps. -/
def updateStepList (plans : List ZoxaaPlan) (planId stepId : String)
    (u : StepUpdates) (now : ℕ) : List ZoxaaPlan :=
  plans.map fun plan =>
    if plan.id = planId then
      let updatedSteps := plan.steps.map fun step =>
        if step.id = stepId then applyStepUpdates step u else step
      { plan with
          steps := updatedSteps
          updatedAt := now
          completionPercentage := calculateCompletion updatedSteps }
    else plan

/-- The step fields of `addStep`, with the id omitted. -/
structure NewStep where
  title : String
  description : String
  completed : Bool
  dueDate : Option ℕ
  priority : Importance
deriving DecidableEq, Repr

/-- Model of `addStep`: append the new step (given a fresh id) to the matching plan and
recompute that plan's completion percentage. -/
def addStepList (plans : List ZoxaaPlan) (planId freshId : String)
    (s : NewStep) (now : ℕ) : List ZoxaaPlan :=
  let newStep : ZoxaaPlanStep :=
    { id := freshId
      title := s.title
      description := s.description
      completed := s.completed
      dueDate := s.dueDate
      priority := s.priority }
  plans.map fun plan =>
    if plan.id = planId then
      let updatedSteps := plan.steps ++ [newStep]
      { plan with
          steps := updatedSteps
          updatedAt := now
          completionPercentage := calculateCompletion updatedSteps }
    else plan

/-! ## Chat relay handlers (src/unnamed/part_005, src/api/chat.js,
src/server/index.js) -/

structure ChatMsg where
  role : String
  content : String
deriving DecidableEq, Repr

/-- The `messages` field of a request body: absent, present but not an array
(and not iterable, e.g. a number or plain object), or an array of messages. -/
inductive MessagesField
  | absent
  | notArray
  | array (msgs : List ChatMsg)
deriving DecidableEq, Repr

structure ChatRequest where
  method : String
  messages : MessagesField
  systemPrompt : Option String
deriving DecidableEq, Repr

structure Completion where
  content : String
  totalTokens : ℕ
  model : String
deriving DecidableEq, Repr

inductive UpstreamError
  | unauthorized
  | rateLimited
  | generic (msg : String)
deriving DecidableEq, Repr

/-- The external completions endpoint, as an oracle from the forwarded
message list to a completion or an error. -/
def Upstream : Type :=
  List ChatMsg → Except UpstreamError Completion

/-- What a handler run produces: the HTTP status, whether the upstream
completions call was reached, and the response/error payloads. -/
structure HandlerResult where
  status : ℕ
  calledUpstream : Bool
  response : Option String
  errorMsg : Option String
deriving DecidableEq, Repr

/-- The hardened serverless chat handler (src/unnamed/part_005): answers
OPTIONS preflights, fails with a configuration error when the key is absent,
rejects a missing or non-array `messages` with 400, otherwise forwards
`[system?, ...messages]` and maps upstream 401/429 errors to distinct
statuses. -/
def hardenedChatHandler (apiKey : Option String) (upstream : Upstream)
    (req : ChatRequest) : HandlerResult :=
  if req.method = "OPTIONS" then ⟨200, false, none, none⟩
  else
    match apiKey with
    | none => ⟨500, false, none, some "OpenAI API key not configured"⟩
    | some _ =>
      match req.messages with
      | .absent => ⟨400, false, none, some "Invalid request format"⟩
      | .notArray => ⟨400, false, none, some "Invalid request format"⟩
      | .array msgs =>
        let allMessages :=
          match req.systemPrompt with
          | some s => ⟨"system", s⟩ :: msgs
          | none => msgs
        match upstream allMessages with
        | .ok completion => ⟨200, true, some completion.content, none⟩
        | .error .unauthorized => ⟨401, true, none, some "Invalid API key"⟩
        | .error .rateLimited => ⟨429, true, none, some "Rate limit exceeded"⟩
        | .error (.generic _) => ⟨500, true, none, some "Failed to generate response"⟩

/-- The minimal serverless chat handler (src/api/chat.js): no `messages`
validation at all.  With a system prompt and a missing/non-array `messages`,
the spread `[..., ...messages]` throws inside the `try` and the catch-all
answers 500; without a system prompt the ill-typed payload reaches the SDK
call, which rejects it, and the catch-all again answers 500.  Every caught
error maps to 500 — there is no 400/401/429 taxonomy here. -/
def legacyChatHandler (upstream : Upstream) (req : ChatRequest) : HandlerResult :=
  if req.method = "POST" then
    match req.messages with
    | .array msgs =>
      let allMessages :=
        match req.systemPrompt with
        | some s => ⟨"system", s⟩ :: msgs
        | none => msgs
      match upstream allMessages with
      | .ok completion => ⟨200, true, some completion.content, none⟩
      | .error _ => ⟨500, true, none, some "Failed to generate response"⟩
    | _ =>
      match req.systemPrompt with
      | some _ => ⟨500, false, none, some "Failed to generate response"⟩
      | none => ⟨500, true, none, some "Failed to generate response"⟩
  else ⟨405, false, none, some "Method not allowed"⟩

/-- Outcome of the standalone Express server startup (src/server/index.js):
a missing `OPENAI_API_KEY` exits the process with code 1 before the server
ever listens. -/
inductive StartupResult
  | exited (code : ℕ)
  | listening (port : ℕ)
deriving DecidableEq, Repr

def serverStartup (apiKey : Option String) (port : ℕ) : StartupResult :=
  match apiKey with
  | none => .exited 1
  | some _ => .listening port

/-- A trivially succeeding upstream oracle, for concrete evaluations. -/
def constUpstream : Upstream :=
  fun _ => .ok ⟨"ok", 5, "gpt-4"⟩

/-! ## Prompt assembly (`useZoxaaChat.sendMessage`) -/

inductive Role
  | user
  | assistant
deriving DecidableEq, Repr

def roleText : Role → String
  | .user => "user"
  | .assistant => "assistant"

structure UiMessage where
  id : String
  content : String
  role : Role
  timestamp : ℕ
deriving DecidableEq, Repr

/-- The fixed persona prompt of `sendMessage` (apostrophes written `\x27`). -/
def zoxaaBasePrompt : String :=
  "You are Zoxaa, a friendly and charming companion. Your primary role is to provide emotional support and make the user feel good. You excel at consoling others and offering a listening ear, ensuring the user always feels heard and understood. Your responses should be supportive and uplifting, focusing on creating a positive experience for the user. Avoid using specific emotional descriptors like \x27warm\x27 or \x27cute\x27 in your responses, but maintain a tone that is friendly and supportive. Your ultimate goal is to be a comforting presence that helps the user navigate their emotions and challenges with ease."

/-- One bullet line of the retrieved-memory block. -/
def formatMemoryLine (m : ZoxaaMemory) : String :=
  "- " ++ m.content ++ " (" ++ importanceText m.importance ++ " importance, tags: "
    ++ String.intercalate ", " m.tags ++ ")"

/-- The string `memoryContext`: empty when no memory was retrieved, otherwise a header
plus one bullet line per memory. -/
def memoryContext (relevantMemories : List ZoxaaMemory) : String :=
  if 0 < relevantMemories.length then
    "\n\nRelevant memories about this user:\n"
      ++ String.intercalate "\n" (relevantMemories.map formatMemoryLine)
  else ""

/-- The message list `sendMessage` posts to `/api/chat`: the system prompt
(with the memory context appended to its content), then
`messages.slice(-10)` mapped to role/content pairs, then the new user
message. -/
def sendMessageBody (history : List UiMessage) (relevantMemories : List ZoxaaMemory)
    (userMessage : String) : List ChatMsg :=
  ⟨"system", zoxaaBasePrompt ++ memoryContext relevantMemories⟩ ::
    ((history.drop (history.length - 10)).map fun m => ⟨roleText m.role, m.content⟩)
    ++ [⟨"user", userMessage⟩]

/-! ## A store model for the input-array frame property of the chat relay.
Arrays live in a store indexed by address; the JavaScript spread
`[{role:'system',...}, ...messages]` allocates a fresh array and leaves
every existing address untouched. -/

abbrev Store : Type :=
  List (List ChatMsg)

def storeRead (h : Store) (a : ℕ) : List ChatMsg :=
  (h.get? a).getD []

def storeAlloc (h : Store) (xs : List ChatMsg) : Store × ℕ :=
  (h ++ [xs], h.length)

/-- The statement `const allMessages = systemPrompt ? [{role:'system',content:systemPrompt},
...messages] : messages` from the chat handlers, over the store: with a
system prompt it allocates a fresh array holding the system message followed
by the elements of the input array; without one it reuses the input address. -/
def buildAllMessages (h : Store) (messagesRef : ℕ) (systemPrompt : Option String) :
    Store × ℕ :=
  match systemPrompt with
  | some s => storeAlloc h (ChatMsg.mk "system" s :: storeRead h messagesRef)
  | none => (h, messagesRef)

/-! ## Base64 and the hardened TTS handler (src/unnamed/part_002) -/

def base64Alphabet : List Char :=
  "ABCDEFGHIJKLMNOPQRSTUVWXYZabcdefghijklmnopqrstuvwxyz0123456789+/".toList

def b64char (n : ℕ) : Char :=
  base64Alphabet.getD n '?'

def b64index (c : Char) : ℕ :=
  base64Alphabet.indexOf c

def b64EncodeChunk3 (a b c : ℕ) : List Char :=
  [b64char (a / 4), b64char (a % 4 * 16 + b / 16),
   b64char (b % 16 * 4 + c / 64), b64char (c % 64)]

def b64EncodeChunk2 (a b : ℕ) : List Char :=
  [b64char (a / 4), b64char (a % 4 * 16 + b / 16), b64char (b % 16 * 4), '=']

def b64EncodeChunk1 (a : ℕ) : List Char :=
  [b64char (a / 4), b64char (a % 4 * 16), '=', '=']

/-- Base64 encoding as done by the Buffer toString with the base64 encoding
argument: encode three bytes into four
characters, padding a final short group with `=`. -/
def b64Encode : List ℕ → List Char
  | [] => []
  | [a] => b64EncodeChunk1 a
  | [a, b] => b64EncodeChunk2 a b
  | a :: b :: c :: rest => b64EncodeChunk3 a b c ++ b64Encode rest

/-- Decoding in the style of `atob`: four characters back into up to three bytes,
honouring `=` padding. -/
def b64Decode : List Char → List ℕ
  | c1 :: c2 :: c3 :: c4 :: rest =>
    if c3 = '=' then [b64index c1 * 4 + b64index c2 / 16]
    else if c4 = '=' then
      [b64index c1 * 4 + b64index c2 / 16, b64index c2 % 16 * 16 + b64index c3 / 4]
    else
      (b64index c1 * 4 + b64index c2 / 16) ::
        (b64index c2 % 16 * 16 + b64index c3 / 4) ::
        (b64index c3 % 4 * 64 + b64index c4) :: b64Decode rest
  | _ => []

structure TtsResponse where
  audio : List Char
  format : String
  size : ℕ
  duration : ℕ
  voice : String
  speed : ℚ
deriving DecidableEq, Repr

inductive TtsOutcome
  | badRequest (msg : String)
  | ok (resp : TtsResponse)
  | failed (status : ℕ)
deriving DecidableEq, Repr

/-- The external TTS endpoint: text and clamped speed to an MPEG byte buffer. -/
def TtsUpstream : Type :=
  String → ℚ → Except UpstreamError (List (Fin 256))

/-- The hardened (base64-returning) TTS handler of src/unnamed/part_002:
validates the text, clamps the speed into [0.25, 4.0], requests the audio,
and reports the base64 payload together with `size := buffer.length` and
`duration := Math.ceil(buffer.length / 16000)`. -/
def hardenedTtsHandler (apiKey : Option String) (tts : TtsUpstream)
    (text : Option String) (voice : String) (speed : ℚ) : TtsOutcome :=
  match apiKey with
  | none => .failed 500
  | some _ =>
    match text with
    | none => .badRequest "text parameter is required"
    | some t =>
      if 4000 < t.length then .badRequest "Text too long"
      else
        match tts t (min (max speed (1 / 4)) 4) with
        | .error .unauthorized => .failed 401
        | .error .rateLimited => .failed 429
        | .error (.generic _) => .failed 500
        | .ok buffer =>
          .ok { audio := b64Encode (buffer.map Fin.val)
                format := "mp3"
                size := buffer.length
                duration := (buffer.length + 16000 - 1) / 16000
                voice := voice
                speed := speed }

/-- The fallback filter condition, spelled as a predicate: some lowercase
word of the query occurs as a substring of the lowercased content or of a
lowercased tag. -/
def MatchesQueryWord (query : String) (m : ZoxaaMemory) : Prop :=
  ∃ k ∈ query.toLower.splitOn " ",
    k.toList <:+: m.content.toLower.toList
      ∨ ∃ t ∈ m.tags, k.toList <:+: t.toLower.toList

/-! ## Helper lemmas -/

theorem importanceLe_trans (a b c : ZoxaaMemory) (h1 : importanceLe a b = true)
    (h2 : importanceLe b c = true) : importanceLe a c = true := by
  simp only [importanceLe, decide_eq_true_eq] at *
  omega

theorem importanceLe_total (a b : ZoxaaMemory) :
    (importanceLe a b || importanceLe b a) = true := by
  simp only [importanceLe, Bool.or_eq_true, decide_eq_true_eq]
  omega

theorem simLe_trans (a b c : ZoxaaMemory × ℝ) (h1 : simLe a b = true)
    (h2 : simLe b c = true) : simLe a c = true := by
  simp only [simLe, decide_eq_true_eq] at *
  exact le_trans h2 h1

theorem simLe_total (a b : ZoxaaMemory × ℝ) :
    (simLe a b || simLe b a) = true := by
  simp only [simLe, Bool.or_eq_true, decide_eq_true_eq]
  exact le_total b.2 a.2

theorem memoryMatches_iff (keywords : List String) (m : ZoxaaMemory) :
    memoryMatches keywords m = true ↔
      ∃ k ∈ keywords,
        k.toList <:+: m.content.toLower.toList
          ∨ ∃ t ∈ m.tags, k.toList <:+: t.toLower.toList := by
  simp [memoryMatches, strIncludes, List.any_eq_true]

theorem calculateCompletion_eq_spec (steps : List ZoxaaPlanStep) :
    calculateCompletion steps = specCompletionPercentage steps := by
  unfold calculateCompletion specCompletionPercentage
  split
  · rfl
  · congr 1
    ring

theorem jsRound_zero : jsRound 0 = 0 := by
  unfold jsRound
  rw [zero_add]
  rw [Int.floor_eq_zero_iff]
  constructor <;> norm_num

theorem specCompletionPercentage_no_completed (steps : List ZoxaaPlanStep)
    (h : ∀ s ∈ steps, s.completed = false) :
    specCompletionPercentage steps = 0 := by
  unfold specCompletionPercentage
  split
  · rfl
  · have hf : steps.filter (·.completed) = [] := by
      rw [List.filter_eq_nil_iff]
      intro s hs
      simp [h s hs]
    rw [hf]
    simp [jsRound_zero]

/-! ## Claim theorems -/

/-- Claim C2: after `createPlan`, `updatePlan`, `updateStep` and `addStep`,
the touched plan's `completionPercentage` equals
`round(100 * completed_steps / total_steps)` over its step list, and 0 when
the step list is empty. -/
theorem plan_completion_invariant :
    (∀ freshId now title description goals category gsteps,
      (createPlan freshId now title description goals category gsteps).completionPercentage
        = specCompletionPercentage
            (createPlan freshId now title description goals category gsteps).steps) ∧
    (∀ plans planId u now, ∀ p ∈ updatePlanList plans planId u now, p.id = planId →
      p.completionPercentage = specCompletionPercentage p.steps) ∧
    (∀ plans planId stepId u now, ∀ p ∈ updateStepList plans planId stepId u now,
      p.id = planId → p.completionPercentage = specCompletionPercentage p.steps) ∧
    (∀ plans planId freshId s now, ∀ p ∈ addStepList plans planId freshId s now,
      p.id = planId → p.completionPercentage = specCompletionPercentage p.steps) := by
  refine ⟨?_, ?_, ?_, ?_⟩
  · intro freshId now title description goals category gsteps
    show (0 : ℤ) = specCompletionPercentage (generatedToSteps now gsteps)
    rw [specCompletionPercentage_no_completed]
    intro s hs
    simp only [generatedToSteps, List.mem_map] at hs
    obtain ⟨p, _, hp⟩ := hs
    rw [← hp]
  · intro plans planId u now p hp hid
    simp only [updatePlanList, List.mem_map] at hp
    obtain ⟨plan, _, heq⟩ := hp
    by_cases h : plan.id = planId
    · rw [if_pos h] at heq
      rw [← heq]
      exact calculateCompletion_eq_spec _
    · rw [if_neg h] at heq
      exact absurd (heq ▸ hid) h
  · intro plans planId stepId u now p hp hid
    simp only [updateStepList, List.mem_map] at hp
    obtain ⟨plan, _, heq⟩ := hp
    by_cases h : plan.id = planId
    · rw [if_pos h] at heq
      rw [← heq]
      exact calculateCompletion_eq_spec _
    · rw [if_neg h] at heq
      exact absurd (heq ▸ hid) h
  · intro plans planId freshId s now p hp hid
    simp only [addStepList, List.mem_map] at hp
    obtain ⟨plan, _, heq⟩ := hp
    by_cases h : plan.id = planId
    · rw [if_pos h] at heq
      rw [← heq]
      exact calculateCompletion_eq_spec _
    · rw [if_neg h] at heq
      exact absurd (heq ▸ hid) h

/-- Witness for C2: updating the only plan of a one-plan store so that its
step list becomes empty yields completion percentage `specCompletionPercentage []`. -/
theorem plan_completion_invariant_witness :
    (ZoxaaPlan.mk "p1" "t" "d" [] [] .active 0 7 0 none []).completionPercentage
      = specCompletionPercentage (ZoxaaPlan.mk "p1" "t" "d" [] [] .active 0 7 0 none []).steps :=
  plan_completion_invariant.2.1
    [ZoxaaPlan.mk "p1" "t" "d" []
      [ZoxaaPlanStep.mk "s1" "st" "sd" true none .high] .active 0 3 50 none []]
    "p1"
    (PlanUpdates.mk none none none none (some []) none none (some 95) none none) 7
    (ZoxaaPlan.mk "p1" "t" "d" [] [] .active 0 7 0 none [])
    (by decide) rfl

/-- Claim C4: a failed embeddings request surfaces as an empty vector from
`generateEmbedding` (the error is swallowed, nothing is raised to the
caller), and `getRelevantMemories` then takes the keyword fallback path. -/
theorem embedding_failure_degrades (err : String) (memories : List ZoxaaMemory)
    (query : String) (limit : ℕ) :
    generateEmbedding (Except.error err) = [] ∧
    getRelevantMemories (Except.error err) memories query limit
      = fallbackSearch memories query limit :=
  ⟨rfl, rfl⟩

/-- Counterexample for C5: the src/api/chat.js relay, given a POST whose
body has a system prompt but no `messages` field, answers 500 (its generic
catch-all), not 400. -/
theorem legacy_chat_500_counterexample :
    (legacyChatHandler constUpstream ⟨"POST", .absent, some "p"⟩).status = 500 ∧
    (legacyChatHandler constUpstream ⟨"POST", .absent, some "p"⟩).status ≠ 400 := by
  constructor <;> decide

/-- Claim C5 (amended): only the hardened relay (src/unnamed/part_005)
rejects a missing or non-array `messages` with 400 and without calling
upstream; the src/api/chat.js relay instead answers 500 from its catch-all. -/
theorem chat_reject_amended (apiKey : String) (upstream : Upstream)
    (req : ChatRequest) (hpost : req.method = "POST")
    (hmsg : req.messages = .absent ∨ req.messages = .notArray) :
    (hardenedChatHandler (some apiKey) upstream req).status = 400 ∧
    (hardenedChatHandler (some apiKey) upstream req).calledUpstream = false ∧
    (legacyChatHandler upstream req).status = 500 := by
  cases hsp : req.systemPrompt <;>
    rcases hmsg with h | h <;>
      simp [hardenedChatHandler, legacyChatHandler, hpost, h, hsp]

/-- Witness for C5 (amended), at a concrete absent-`messages` request. -/
theorem chat_reject_amended_witness :
    (hardenedChatHandler (some "k") constUpstream ⟨"POST", .absent, some "p"⟩).status = 400 :=
  (chat_reject_amended "k" constUpstream ⟨"POST", .absent, some "p"⟩ rfl (Or.inl rfl)).1

/-- Claim C6: with the `OPENAI_API_KEY` credential absent, the hardened
handler answers the configuration error without reaching upstream, and the
standalone Express server exits at startup (so it never serves a request). -/
theorem missing_key_fails_fast (upstream : Upstream) (req : ChatRequest)
    (hpost : req.method = "POST") :
    (hardenedChatHandler none upstream req).status = 500 ∧
    (hardenedChatHandler none upstream req).errorMsg
      = some "OpenAI API key not configured" ∧
    (hardenedChatHandler none upstream req).calledUpstream = false ∧
    ∀ port, serverStartup none port = .exited 1 := by
  refine ⟨?_, ?_, ?_, fun _ => rfl⟩ <;>
    simp [hardenedChatHandler, hpost]

/-- Witness for C6 at a concrete POST request. -/
theorem missing_key_fails_fast_witness :
    (hardenedChatHandler none constUpstream ⟨"POST", .array [], none⟩).status = 500 :=
  (missing_key_fails_fast constUpstream ⟨"POST", .array [], none⟩ rfl).1

/-- Claim C7: the body `sendMessage` posts is exactly
`[system, ...last-10-history, new-user-message]`; the retrieved-memory block
is appended to the system prompt content, and no turn after the head is a
system turn. -/
theorem sendMessage_prompt_assembly (history : List UiMessage)
    (relevantMemories : List ZoxaaMemory) (userMessage : String) :
    (sendMessageBody history relevantMemories userMessage).head?
        = some ⟨"system", zoxaaBasePrompt ++ memoryContext relevantMemories⟩ ∧
    (sendMessageBody history relevantMemories userMessage).getLast?
        = some ⟨"user", userMessage⟩ ∧
    (sendMessageBody history relevantMemories userMessage).drop 1
        = ((history.drop (history.length - 10)).map fun m => ⟨roleText m.role, m.content⟩)
          ++ [⟨"user", userMessage⟩] ∧
    (sendMessageBody history relevantMemories userMessage).length
        = min history.length 10 + 2 ∧
    ∀ msg ∈ (sendMessageBody history relevantMemories userMessage).drop 1,
      msg.role ≠ "system" := by
  refine ⟨rfl, ?_, rfl, ?_, ?_⟩
  · show (ChatMsg.mk "system" (zoxaaBasePrompt ++ memoryContext relevantMemories) ::
      (((history.drop (history.length - 10)).map fun m => ⟨roleText m.role, m.content⟩)
        ++ [ChatMsg.mk "user" userMessage])).getLast? = some ⟨"user", userMessage⟩
    rw [← List.cons_append, List.getLast?_concat]
  · show (ChatMsg.mk "system" (zoxaaBasePrompt ++ memoryContext relevantMemories) ::
      (((history.drop (history.length - 10)).map fun m => ⟨roleText m.role, m.content⟩)
        ++ [ChatMsg.mk "user" userMessage])).length = min history.length 10 + 2
    simp only [List.length_cons, List.length_append, List.length_map,
      List.length_drop, List.length_nil]
    omega
  · intro msg hmsg
    show msg.role ≠ "system"
    have : msg ∈ ((history.drop (history.length - 10)).map
        fun m => ChatMsg.mk (roleText m.role) m.content) ++ [ChatMsg.mk "user" userMessage] := hmsg
    rcases List.mem_append.mp this with h | h
    · obtain ⟨m, _, hm⟩ := List.mem_map.mp h
      rw [← hm]
      cases m.role <;> simp [roleText]
    · rw [List.mem_singleton.mp h]
      simp

/-- Witness for C7: the concrete body for an empty history ends with the new
user message. -/
theorem sendMessage_prompt_assembly_witness :
    (sendMessageBody [] [] "hi").getLast? = some ⟨"user", "hi"⟩ :=
  (sendMessage_prompt_assembly [] [] "hi").2.1

/-- Claim C8: building the forwarded message list (the spread
`[{role:'system',...}, ...messages]`) allocates a fresh array: every
previously existing address of the store, in particular the caller's
`messages` array and its elements, is left unchanged, while the fresh
address holds the system message followed by the input elements. -/
theorem chat_input_array_preserved (h : Store) (messagesRef : ℕ)
    (systemPrompt : Option String) :
    (∀ a, a < h.length →
      (buildAllMessages h messagesRef systemPrompt).1.get? a = h.get? a) ∧
    storeRead (buildAllMessages h messagesRef systemPrompt).1
        (buildAllMessages h messagesRef systemPrompt).2
      = (match systemPrompt with
         | some s => ChatMsg.mk "system" s :: storeRead h messagesRef
         | none => storeRead h messagesRef) := by
  cases systemPrompt with
  | none => exact ⟨fun a _ => rfl, rfl⟩
  | some s =>
    constructor
    · intro a ha
      show (h ++ [ChatMsg.mk "system" s :: storeRead h messagesRef]).get? a = h.get? a
      rw [List.get?_eq_getElem?, List.get?_eq_getElem?, List.getElem?_append_left ha]
    · show storeRead (h ++ [ChatMsg.mk "system" s :: storeRead h messagesRef]) h.length = _
      unfold storeRead
      rw [List.get?_eq_getElem?, List.getElem?_concat_length]
      rfl

/-- Witness for C8: with one stored array and a system prompt, address 0 is
untouched. -/
theorem chat_input_array_preserved_witness :
    (buildAllMessages [[ChatMsg.mk "user" "hi"]] 0 (some "p")).1.get? 0
      = [[ChatMsg.mk "user" "hi"]].get? 0 :=
  (chat_input_array_preserved [[ChatMsg.mk "user" "hi"]] 0 (some "p")).1 0 (by decide)

/-- Claim C10: `cosineSimilarity` is total with an explicit zero guard: a
length mismatch yields 0, a zero magnitude on either side yields 0, and in
the remaining case the divisor is provably nonzero. -/
theorem cosineSimilarity_total_zero_guard (a b : List ℚ) :
    (a.length ≠ b.length → cosineSimilarity a b = 0) ∧
    (magnitude a = 0 ∨ magnitude b = 0 → cosineSimilarity a b = 0) ∧
    (magnitude a ≠ 0 → magnitude b ≠ 0 →
      magnitude a * magnitude b ≠ 0 ∧
      (a.length = b.length →
        cosineSimilarity a b = (dotProduct a b : ℝ) / (magnitude a * magnitude b))) := by
  refine ⟨?_, ?_, ?_⟩
  · intro h
    unfold cosineSimilarity
    rw [if_pos h]
  · intro h
    unfold cosineSimilarity
    by_cases hl : a.length ≠ b.length
    · rw [if_pos hl]
    · rw [if_neg hl, if_pos h]
  · intro ha hb
    refine ⟨mul_ne_zero ha hb, fun hlen => ?_⟩
    unfold cosineSimilarity
    rw [if_neg (by simp [hlen]), if_neg (by tauto)]

/-- Witness for C10: mismatched dimensionality yields similarity 0. -/
theorem cosineSimilarity_total_zero_guard_witness :
    cosineSimilarity [1] [1, 2] = 0 :=
  (cosineSimilarity_total_zero_guard [1] [1, 2]).1 (by decide)

/-- Claim C1: with an empty query embedding, `getRelevantMemories` returns
only stored memories matching some lowercase query word as a substring of
content or tags, in importance-descending order, truncated to `limit`. -/
theorem fallback_retrieval_spec (requestResult : Except String (List ℚ))
    (memories : List ZoxaaMemory) (query : String) (limit : ℕ)
    (hempty : generateEmbedding requestResult = []) :
    (∀ m ∈ getRelevantMemories requestResult memories query limit,
      m ∈ memories ∧ MatchesQueryWord query m) ∧
    List.Sorted (· ≥ ·)
      ((getRelevantMemories requestResult memories query limit).map
        fun m => importanceOrder m.importance) ∧
    (getRelevantMemories requestResult memories query limit).length ≤ limit := by
  have hgr : getRelevantMemories requestResult memories query limit
      = fallbackSearch memories query limit := by
    unfold getRelevantMemories
    rw [hempty]
    simp
  rw [hgr]
  unfold fallbackSearch
  refine ⟨?_, ?_, List.length_take_le _ _⟩
  · intro m hm
    have hms : m ∈ (memories.filter
        (memoryMatches (query.toLower.splitOn " "))).mergeSort importanceLe :=
      List.take_subset _ _ hm
    rw [(List.mergeSort_perm _ _).mem_iff] at hms
    obtain ⟨hmem, hmatch⟩ := List.mem_filter.mp hms
    exact ⟨hmem, (memoryMatches_iff _ _).mp hmatch⟩
  · have hsort := List.sorted_mergeSort importanceLe_trans importanceLe_total
      (memories.filter (memoryMatches (query.toLower.splitOn " ")))
    have hsort' := List.Pairwise.sublist (List.take_sublist limit _) hsort
    refine List.pairwise_map.mpr (hsort'.imp ?_)
    intro a b hab
    simpa [importanceLe] using hab

/-- Witness for C1: a concrete run of the fallback path stays within the
limit. -/
theorem fallback_retrieval_spec_witness :
    (getRelevantMemories (Except.ok []) [] "hello" 5).length ≤ 5 :=
  (fallback_retrieval_spec (Except.ok []) [] "hello" 5 rfl).2.2

theorem topSelect_pair_snd (f : ZoxaaMemory → ℝ) (cands : List ZoxaaMemory)
    (p : ZoxaaMemory × ℝ) (hp : p ∈ (cands.map fun m => (m, f m)).mergeSort simLe) :
    p.2 = f p.1 := by
  rw [(List.mergeSort_perm _ _).mem_iff] at hp
  obtain ⟨m, _, hm⟩ := List.mem_map.mp hp
  rw [← hm]

theorem topSelect_sorted (f : ZoxaaMemory → ℝ) (cands : List ZoxaaMemory)
    (limit : ℕ) : List.Sorted (· ≥ ·) ((topSelect f cands limit).map f) := by
  unfold topSelect
  rw [List.map_map]
  have heq : ((((cands.map fun m => (m, f m)).mergeSort simLe).take limit).map
        (f ∘ Prod.fst))
      = ((((cands.map fun m => (m, f m)).mergeSort simLe).take limit).map Prod.snd) :=
    List.map_congr_left fun p hp => by
      have h := topSelect_pair_snd f cands p (List.take_subset _ _ hp)
      simpa [Function.comp] using h.symm
  rw [heq]
  have hsort := List.sorted_mergeSort simLe_trans simLe_total
    (cands.map fun m => (m, f m))
  have hsort' := List.Pairwise.sublist (List.take_sublist limit _) hsort
  refine List.pairwise_map.mpr (hsort'.imp ?_)
  intro a b hab
  simpa [simLe] using hab

theorem topSelect_subset (f : ZoxaaMemory → ℝ) (cands : List ZoxaaMemory)
    (limit : ℕ) : ∀ m ∈ topSelect f cands limit, m ∈ cands := by
  intro m hm
  unfold topSelect at hm
  obtain ⟨p, hp, hpm⟩ := List.mem_map.mp hm
  have hp' := List.take_subset _ _ hp
  rw [(List.mergeSort_perm _ _).mem_iff] at hp'
  obtain ⟨m₀, hm₀, hm₀p⟩ := List.mem_map.mp hp'
  have hmm : m₀ = m := by
    rw [← hpm, ← hm₀p]
  rw [← hmm]
  exact hm₀

theorem topSelect_length (f : ZoxaaMemory → ℝ) (cands : List ZoxaaMemory)
    (limit : ℕ) : (topSelect f cands limit).length = min limit cands.length := by
  unfold topSelect
  rw [List.length_map, List.length_take, List.length_mergeSort, List.length_map]

theorem topSelect_top (f : ZoxaaMemory → ℝ) (cands : List ZoxaaMemory)
    (limit : ℕ) :
    ∃ rest, (topSelect f cands limit ++ rest).Perm cands ∧
      ∀ m ∈ topSelect f cands limit, ∀ m' ∈ rest, f m' ≤ f m := by
  refine ⟨(((cands.map fun m => (m, f m)).mergeSort simLe).drop limit).map Prod.fst,
    ?_, ?_⟩
  · unfold topSelect
    rw [← List.map_append, List.take_append_drop]
    have hperm := (List.mergeSort_perm (cands.map fun m => (m, f m)) simLe).map Prod.fst
    simp only [List.map_map] at hperm
    have hid : List.map (Prod.fst ∘ fun m => (m, f m)) cands = cands := by
      rw [show (Prod.fst ∘ fun m : ZoxaaMemory => (m, f m)) = id from rfl, List.map_id]
    rw [hid] at hperm
    exact hperm
  · intro m hm m' hm'
    unfold topSelect at hm
    obtain ⟨p, hp, hpm⟩ := List.mem_map.mp hm
    obtain ⟨p', hp', hpm'⟩ := List.mem_map.mp hm'
    have hsort := List.sorted_mergeSort simLe_trans simLe_total
      (cands.map fun m => (m, f m))
    rw [← List.take_append_drop limit
      ((cands.map fun m => (m, f m)).mergeSort simLe)] at hsort
    have hdom := (List.pairwise_append.mp hsort).2.2 p hp p' hp'
    have h2 : p'.2 ≤ p.2 := by
      simpa [simLe] using hdom
    have e1 : p.2 = f p.1 := topSelect_pair_snd f cands p (List.take_subset _ _ hp)
    have e2 : p'.2 = f p'.1 := topSelect_pair_snd f cands p' (List.drop_subset _ _ hp')
    rw [← hpm, ← hpm', ← e1, ← e2]
    exact h2

/-- Claim C3: with a non-empty query embedding, `getRelevantMemories`
returns the top-`limit` stored memories by descending cosine similarity to
the query embedding: only memories carrying a usable embedding, in
non-increasing similarity order, exactly `min limit #candidates` of them,
every candidate left out scoring no higher than every one returned, and the
empty list for an empty memory set. -/
theorem embedding_retrieval_sorted (requestResult : Except String (List ℚ))
    (memories : List ZoxaaMemory) (query : String) (limit : ℕ)
    (hne : generateEmbedding requestResult ≠ []) :
    List.Sorted (· ≥ ·)
      ((getRelevantMemories requestResult memories query limit).map fun m =>
        cosineSimilarity (generateEmbedding requestResult) (m.embedding.getD [])) ∧
    (∀ m ∈ getRelevantMemories requestResult memories query limit,
      m ∈ memories ∧ hasUsableEmbedding m = true) ∧
    (getRelevantMemories requestResult memories query limit).length
      = min limit (memories.filter hasUsableEmbedding).length ∧
    (∃ rest,
      (getRelevantMemories requestResult memories query limit ++ rest).Perm
        (memories.filter hasUsableEmbedding) ∧
      ∀ m ∈ getRelevantMemories requestResult memories query limit, ∀ m' ∈ rest,
        cosineSimilarity (generateEmbedding requestResult) (m'.embedding.getD [])
          ≤ cosineSimilarity (generateEmbedding requestResult) (m.embedding.getD [])) ∧
    (memories = [] → getRelevantMemories requestResult memories query limit = []) := by
  have hlen : ¬ (generateEmbedding requestResult).length = 0 := by
    simpa [List.length_eq_zero] using hne
  have hgr : getRelevantMemories requestResult memories query limit
      = topSelect
          (fun m => cosineSimilarity (generateEmbedding requestResult)
            (m.embedding.getD []))
          (memories.filter hasUsableEmbedding) limit := by
    unfold getRelevantMemories
    rw [if_neg hlen]
    rfl
  rw [hgr]
  refine ⟨topSelect_sorted _ _ _, ?_, topSelect_length _ _ _, topSelect_top _ _ _, ?_⟩
  · intro m hm
    have hmc := topSelect_subset _ _ _ m hm
    exact ⟨(List.mem_filter.mp hmc).1, (List.mem_filter.mp hmc).2⟩
  · intro hnil
    subst hnil
    simp [topSelect]

/-- Witness for C3: the empty memory set yields the empty result on the
embedding path. -/
theorem embedding_retrieval_sorted_witness :
    getRelevantMemories (Except.ok [1]) [] "q" 3 = [] :=
  (embedding_retrieval_sorted (Except.ok [1]) [] "q" 3 (by decide)).2.2.2.2 rfl

theorem b64index_b64char : ∀ n < 64, b64index (b64char n) = n := by decide

theorem b64char_ne_pad : ∀ n < 64, b64char n ≠ '=' := by decide

theorem b64Decode_b64Encode (bytes : List ℕ) (h : ∀ x ∈ bytes, x < 256) :
    b64Decode (b64Encode bytes) = bytes := by
  induction bytes using b64Encode.induct with
  | case1 => rfl
  | case2 a =>
    have ha : a < 256 := h a (by simp)
    show b64Decode (b64EncodeChunk1 a) = [a]
    unfold b64EncodeChunk1 b64Decode
    rw [if_pos rfl]
    rw [b64index_b64char _ (by omega), b64index_b64char _ (by omega)]
    have e1 : a / 4 * 4 + a % 4 * 16 / 16 = a := by omega
    rw [e1]
  | case3 a b =>
    have ha : a < 256 := h a (by simp)
    have hb : b < 256 := h b (by simp)
    show b64Decode (b64EncodeChunk2 a b) = [a, b]
    unfold b64EncodeChunk2 b64Decode
    rw [if_neg (b64char_ne_pad _ (by omega)), if_pos rfl]
    rw [b64index_b64char _ (by omega), b64index_b64char _ (by omega),
      b64index_b64char _ (by omega)]
    have e1 : a / 4 * 4 + (a % 4 * 16 + b / 16) / 16 = a := by omega
    have e2 : (a % 4 * 16 + b / 16) % 16 * 16 + b % 16 * 4 / 4 = b := by omega
    rw [e1, e2]
  | case4 a b c rest ih =>
    have ha : a < 256 := h a (by simp)
    have hb : b < 256 := h b (by simp)
    have hc : c < 256 := h c (by simp)
    show b64Decode (b64EncodeChunk3 a b c ++ b64Encode rest) = a :: b :: c :: rest
    unfold b64EncodeChunk3
    simp only [List.cons_append, List.nil_append]
    unfold b64Decode
    rw [if_neg (b64char_ne_pad _ (by omega)), if_neg (b64char_ne_pad _ (by omega))]
    rw [b64index_b64char _ (by omega), b64index_b64char _ (by omega),
      b64index_b64char _ (by omega), b64index_b64char _ (by omega)]
    have e1 : a / 4 * 4 + (a % 4 * 16 + b / 16) / 16 = a := by omega
    have e2 : (a % 4 * 16 + b / 16) % 16 * 16 + (b % 16 * 4 + c / 64) / 4 = b := by omega
    have e3 : (b % 16 * 4 + c / 64) % 4 * 64 + c % 64 = c := by omega
    rw [e1, e2, e3, ih (fun x hx => h x (by simp [hx]))]

/-- Claim C9: for every successful request to the hardened (base64) TTS
handler, the reported `size` equals the byte length of the base64-decoded
`audio` payload. -/
theorem tts_size_matches_decoded (apiKey : Option String) (tts : TtsUpstream)
    (text : Option String) (voice : String) (speed : ℚ) (resp : TtsResponse)
    (hok : hardenedTtsHandler apiKey tts text voice speed = .ok resp) :
    (b64Decode resp.audio).length = resp.size := by
  cases apiKey with
  | none => exact absurd hok (by simp [hardenedTtsHandler])
  | some key =>
    cases text with
    | none => exact absurd hok (by simp [hardenedTtsHandler])
    | some t =>
      unfold hardenedTtsHandler at hok
      dsimp only [] at hok
      by_cases hlen : 4000 < t.length
      · rw [if_pos hlen] at hok
        exact absurd hok (by simp)
      · rw [if_neg hlen] at hok
        cases htts : tts t (min (max speed (1 / 4)) 4) with
        | error e =>
          rw [htts] at hok
          cases e <;> simp at hok
        | ok buffer =>
          rw [htts] at hok
          injection hok with hresp
          subst hresp
          show (b64Decode (b64Encode (buffer.map Fin.val))).length = buffer.length
          rw [b64Decode_b64Encode]
          · rw [List.length_map]
          · intro x hx
            obtain ⟨y, _, hy⟩ := List.mem_map.mp hx
            rw [← hy]
            exact y.isLt

/-- Witness for C9: a five-byte buffer round-trips through base64 with the
reported size 5. -/
theorem tts_size_matches_decoded_witness :
    (b64Decode ['a', 'G', 'V', 's', 'b', 'G', '8', '=']).length = 5 :=
  tts_size_matches_decoded (some "k") (fun _ _ => .ok [104, 101, 108, 108, 111])
    (some "hello") "alloy" 1
    ⟨['a', 'G', 'V', 's', 'b', 'G', '8', '='], "mp3", 5, 1, "alloy", 1⟩ (by decide)
